import Mathlib

/-!
# Verification of the COMPAS data-preprocessing pipeline

Shallow embedding of `data_preprocessing.ipynb` (AF-CBR-COMPAS).  The
notebook is a linear pandas pipeline; we model its row-level semantics:

* tables are `List`s of row structures; nullable fields are `Option`s
  (pandas `NaN`/`None` is `none`);
* `sort_values` is `List.mergeSort` with the corresponding boolean key
  comparison (the notebook's sort key for arrest dates is the date string
  `"YYYY-MM-DD"`, whose lexicographic order on well-formed four-digit-year
  dates coincides with the numeric order of `dateKey`);
* `groupby(k).first()` is the head of the sorted list filtered to a group;
* `merge` / `pivot` / `dropna` / `astype` are modelled per row below, each
  next to its definition;
* Python dates (`datetime.strptime` with format `"%Y-%m-%d"`, and
  subtraction giving `.days`) are triples of numerals with the proleptic
  Gregorian day count (the same civil-calendar day count Python's
  `datetime` uses, up to a constant offset that cancels in differences);
* Python `round(x)` on the quotient `days / 365.25` is exact rational
  rounding half-to-even: `365.25 = 1461/4` is a dyadic rational, the
  quotient `days*4/1461` is never a half-integer (`1461` is odd), and its
  distance to the nearest half-integer (at least `1/2922`) dwarfs the
  double-precision rounding error, so the float computation agrees with
  the exact one.
-/

namespace Compas

/-- A calendar date, as parsed by `datetime.strptime(s, "%Y-%m-%d")` after
the notebook strips the `" 00:00:00.000000"` time-of-day suffix. -/
structure Date where
  year : Nat
  month : Nat
  day : Nat
deriving DecidableEq, Repr

/-- Numeric key whose order coincides with the lexicographic order of the
`"YYYY-MM-DD"` strings the notebook sorts, for well-formed dates. -/
def dateKey (dt : Date) : Nat :=
  dt.year * 10000 + dt.month * 100 + dt.day

/-- Well-formedness of a date as validated by `strptime` (month and day in
range, four-digit year as in the data). -/
def validDate (dt : Date) : Prop :=
  1 ≤ dt.month ∧ dt.month ≤ 12 ∧ 1 ≤ dt.day ∧ dt.day ≤ 31 ∧ dt.year ≤ 9999

instance (dt : Date) : Decidable (validDate dt) := by
  unfold validDate
  infer_instance

/-- Proleptic Gregorian day count of a civil date (days since 1970-01-01;
the constant offset is irrelevant because only differences are used).
This is the standard `days_from_civil` computation and agrees with the
difference of Python `datetime.toordinal` values. -/
def daysFromCivil (dt : Date) : Int :=
  let y : Int := (dt.year : Int) - (if dt.month ≤ 2 then 1 else 0)
  let era : Int := y.fdiv 400
  let yoe : Int := y - era * 400
  let mp : Int := ((dt.month : Int) + 9) % 12
  let doy : Int := (153 * mp + 2).fdiv 5 + (dt.day : Int) - 1
  let doe : Int := yoe * 365 + yoe.fdiv 4 - yoe.fdiv 100 + doy
  era * 146097 + doe - 719468

/-- Python `round` applied to the exact rational `n / d` (for `d > 0`):
round to the nearest integer, ties to the even integer. -/
def pyRoundDiv (n d : Int) : Int :=
  let q := n.fdiv d
  let r := n - q * d
  if 2 * r < d then q
  else if d < 2 * r then q + 1
  else if q % 2 = 0 then q else q + 1

/-- `time_diff` from the notebook: the fallback to the stated age when the
arrest-date slot holds the `"No_arrest"` sentinel (here: `none`), otherwise
`round((d2 - d1).days / 365.25)`; since `365.25 = 1461/4` exactly, the
quotient is the exact rational `(days*4)/1461`. -/
def time_diff (s1 : Date) (s2 : Option Date) (s3 : Int) : Int :=
  match s2 with
  | none => s3
  | some d2 => pyRoundDiv ((daysFromCivil d2 - daysFromCivil s1) * 4) 1461

/-- A row of the `casearrest` table (the two columns the notebook keeps). -/
structure ArrestRow where
  person_id : Nat
  arrest_date : Date
deriving DecidableEq, Repr

/-- Boolean comparison used by `sort_values('arrest_date')`: the notebook
sorts the raw `"YYYY-MM-DD ..."` strings, whose order on well-formed dates
is the order of `dateKey`. -/
def arrestLE (a b : ArrestRow) : Bool :=
  decide (dateKey a.arrest_date ≤ dateKey b.arrest_date)

/-- `dfd['casearrest'].sort_values('arrest_date')`. -/
def sortedArrests (l : List ArrestRow) : List ArrestRow :=
  l.mergeSort arrestLE

/-- The `arrest_date` of `first_arrest` for person `p`:
`sort_values('arrest_date').groupby('person_id').first()`, i.e. the head of
the sorted table restricted to that person (absent when the person has no
arrest row, which the later left merge plus `fillna` turns into the
`"No_arrest"` sentinel, `none` here). -/
def first_arrest_date (l : List ArrestRow) (p : Nat) : Option Date :=
  (((sortedArrests l).filter (fun r => r.person_id == p)).head?).map (·.arrest_date)

/-- The derived `age_at_first_arrest` column for one person:
`time_diff(row['dob'], row['arrest_date'], row['age'])` after the left
merge with `first_arrest`. -/
def age_at_first_arrest (arrests : List ArrestRow) (dob : Date) (age : Int) (p : Nat) : Int :=
  time_diff dob (first_arrest_date arrests p) age

/-- Modelled from the spec's words for the comparison in C1: the earliest
(minimum) arrest date over a person's arrest records, computed by a direct
fold rather than by sorting. -/
def earliestArrestDate (l : List ArrestRow) (p : Nat) : Option Date :=
  match (l.filter (fun r => r.person_id == p)).map (·.arrest_date) with
  | [] => none
  | d :: ds => some (ds.foldl (fun a b => if dateKey b < dateKey a then b else a) d)

/-- A row of the `compas` assessment table (the columns in `cols` that the
notebook keeps; `id` is dropped unused).  Nullable fields are `Option`s. -/
structure CompasRow where
  person_id : Nat
  compas_assessment_id : Nat
  type_of_assessment : String
  raw_score : Option Rat
  decile_score : Option Int
  score_text : Option String
  marital_status : Option String
  rec_supervision_level : Option Int
deriving DecidableEq, Repr

/-- `compas_df = compas_df[compas_df["score_text"] != "N/A"]`: drop rows
whose score text is the sentinel.  A null (`NaN`) score text compares
unequal to `"N/A"` in pandas and therefore survives this filter. -/
def compas_filtered (l : List CompasRow) : List CompasRow :=
  l.filter (fun r => !(r.score_text == some "N/A"))

/-- Comparison for `sort_values(by=['person_id', 'compas_assessment_id'])`. -/
def compasLE (a b : CompasRow) : Bool :=
  decide (a.person_id < b.person_id) ||
    (a.person_id == b.person_id && decide (a.compas_assessment_id ≤ b.compas_assessment_id))

/-- `compas_df_sorted = compas_df.sort_values(by=['person_id', 'compas_assessment_id'])`. -/
def compas_df_sorted (l : List CompasRow) : List CompasRow :=
  (compas_filtered l).mergeSort compasLE

/-- The `compas_assessment_id` that `first_screening` records for person
`p`: the assessment id of the first row of that person's group in the
sorted table (`groupby('person_id').first()`). -/
def first_screening_aid (l : List CompasRow) (p : Nat) : Option Nat :=
  (((compas_df_sorted l).filter (fun r => r.person_id == p)).head?).map
    (·.compas_assessment_id)

/-- `first_screening_df`: the inner merge of the sorted table with
`first_screening[['person_id', 'compas_assessment_id']]` keeps exactly the
sorted rows whose `(person_id, compas_assessment_id)` pair equals that
person's group-first pair. -/
def first_screening_df (l : List CompasRow) : List CompasRow :=
  (compas_df_sorted l).filter
    (fun r => first_screening_aid l r.person_id == some r.compas_assessment_id)

/-- ASCII lower-casing of one character, as Python `str.lower` acts on the
ASCII column names in play. -/
def asciiLowerChar (c : Char) : Char :=
  if 'A' ≤ c ∧ c ≤ 'Z' then Char.ofNat (c.toNat + 32) else c

/-- Python `str.lower` on the character list of an ASCII string. -/
def asciiLower (s : List Char) : List Char :=
  s.map asciiLowerChar

/-- Python whitespace recognised by `str.strip`. -/
def isPySpace (c : Char) : Bool :=
  c = ' ' || c = '\t' || c = '\n' || c = '\r' || c = '\x0b' || c = '\x0c'

/-- Python `str.strip()`: remove whitespace from both ends. -/
def pyStrip (s : List Char) : List Char :=
  ((s.dropWhile isPySpace).reverse.dropWhile isPySpace).reverse

/-- Worker for `strReplace`; the fuel argument starts at the string length
and dominates it throughout (each step consumes at least one character
because the pattern is nonempty). -/
def strReplaceAux (pat rep : List Char) : Nat → List Char → List Char
  | 0, s => s
  | _ + 1, [] => []
  | fuel + 1, c :: rest =>
    if pat.isPrefixOf (c :: rest) then
      rep ++ strReplaceAux pat rep fuel ((c :: rest).drop pat.length)
    else
      c :: strReplaceAux pat rep fuel rest

/-- Python `str.replace(pat, rep)` (and pandas `str.replace(..., regex=False)`,
the pandas-2 default used by the notebook): replace all non-overlapping
occurrences left to right.  (For an empty pattern the notebook never calls
this; we return the string unchanged.) -/
def strReplace (s pat rep : List Char) : List Char :=
  if pat.isEmpty then s else strReplaceAux pat rep s.length s

/-- `str.replace` lifted to `String`. -/
def pyReplace (s pat rep : String) : String :=
  ⟨strReplace s.data pat.data rep.data⟩

/-- The pivot column naming of the notebook:
`'_'.join(col).strip().replace(' ', '_').lower()` for `col = (v, ty)`. -/
def pivotColName (v ty : String) : String :=
  ⟨asciiLower (strReplace (pyStrip (v ++ "_" ++ ty).data) [' '] ['_'])⟩

/-- A table cell: the value kinds occurring in the final person table. -/
inductive Cell where
  | str : String → Cell
  | int : Int → Cell
  | rat : Rat → Cell
deriving DecidableEq, Repr

/-- The `raw_score` value of a row, as a (possibly null) cell. -/
def rawCell (r : CompasRow) : Option Cell :=
  r.raw_score.map Cell.rat

/-- The `decile_score` value of a row, as a (possibly null) cell. -/
def decileCell (r : CompasRow) : Option Cell :=
  r.decile_score.map Cell.int

/-- The `score_text` value of a row, as a (possibly null) cell. -/
def textCell (r : CompasRow) : Option Cell :=
  r.score_text.map Cell.str

/-- One cell of the pivoted table: the value of column `f` at the unique
row of person `p` and assessment type `ty` (pandas leaves `NaN` both when
no such row exists and when the stored value is null). -/
def pcell (rows : List CompasRow) (p : Nat) (ty : String) (f : CompasRow → Option Cell) :
    Option Cell :=
  ((rows.filter (fun r => r.person_id == p && r.type_of_assessment == ty)).head?).bind f

/-- Code-point lexicographic comparison of character lists (Python string
order, used by pandas for the pivot's column axis). -/
def charListLE : List Char → List Char → Bool
  | [], _ => true
  | _ :: _, [] => false
  | a :: as, b :: bs => if a = b then charListLE as bs else decide (a.toNat < b.toNat)

/-- Python string order on `String`. -/
def strLE (a b : String) : Bool :=
  charListLE a.data b.data

/-- The pivot's column axis: the distinct `type_of_assessment` values of
the table, sorted as strings. -/
def pivotTypes (rows : List CompasRow) : List String :=
  ((rows.map (·.type_of_assessment)).dedup).mergeSort strLE

/-- One row of `pivoted_df` after the column renaming join: an association
list from flattened column names to (possibly null) cell values, grouped
by value column first as `values=['raw_score', 'decile_score', 'score_text']`
produces. -/
def pivoted_row (rows : List CompasRow) (p : Nat) : List (String × Option Cell) :=
  ((pivotTypes rows).map fun ty => (pivotColName "raw_score" ty, pcell rows p ty rawCell))
    ++ ((pivotTypes rows).map fun ty =>
          (pivotColName "decile_score" ty, pcell rows p ty decileCell))
    ++ ((pivotTypes rows).map fun ty =>
          (pivotColName "score_text" ty, pcell rows p ty textCell))

/-- Column access in a wide-table row by column name. -/
def lookupCol (name : String) (row : List (String × Option Cell)) : Option (Option Cell) :=
  (row.find? (fun kv => kv.1 == name)).map (·.2)

/-- The three assessment types of the COMPAS data. -/
def assessmentTypes : List String :=
  ["Risk of Failure to Appear", "Risk of Recidivism", "Risk of Violence"]

/-- The row `other_columns` keeps for person `p`:
`drop_duplicates(subset='person_id')` keeps the first `first_screening_df`
row of that person. -/
def other_columns_row (l : List CompasRow) (p : Nat) : Option CompasRow :=
  ((first_screening_df l).filter (fun r => r.person_id == p)).head?

/-- The assessment-derived cells the left merge with `final_df` contributes
to person `p`'s row of `ext_people`: `marital_status` and
`rec_supervision_level` once per person, then the pivoted cells.  When the
person has no retained assessment, every one of these cells is null. -/
def merged_assess_cells (l : List CompasRow) (p : Nat) : List (Option Cell) :=
  [(other_columns_row l p).bind (fun r => r.marital_status.map Cell.str),
    (other_columns_row l p).bind (fun r => r.rec_supervision_level.map Cell.int)]
    ++ (pivoted_row (first_screening_df l) p).map (·.2)

/-- The full cell list of person `p`'s row of the final table: the person's
own (demographic and derived) cells followed by the merged assessment
cells. -/
def final_row_cells (personCells : List (Option Cell)) (l : List CompasRow) (p : Nat) :
    List (Option Cell) :=
  personCells ++ merged_assess_cells l p

/-- `ext_people.dropna()`: keep exactly the rows without a null cell. -/
def dropna (rows : List (List (Option Cell))) : List (List (Option Cell)) :=
  rows.filter (fun row => row.all (fun c => c.isSome))

/-- The notebook's `repl` dict, in its (insertion-ordered) iteration
order. -/
def repl : List (String × String) :=
  [("raw_score", "rs"),
   ("decile_score", "ds"),
   ("rec_supervision_level", "slevel"),
   ("risk_of_failure_to_appear", "fta"),
   ("risk_of_recidivism", "grecid"),
   ("risk_of_violence", "vrecid"),
   ("score_text_fta", "fta_text"),
   ("score_text_grecid", "grecid_text"),
   ("score_text_vrecid", "vrecid_text"),
   ("sex", "male")]

/-- `for k in repl: columns.str.replace(k, repl[k])` applied to one column
name, for a given application order of the mapping's entries. -/
def apply_repl (prs : List (String × String)) (name : String) : String :=
  prs.foldl (fun n kv => pyReplace n kv.1 kv.2) name

/-- Substring test (`pat in s` for Python strings). -/
def containsSub (pat : List Char) : List Char → Bool
  | [] => pat.isEmpty
  | c :: rest => pat.isPrefixOf (c :: rest) || containsSub pat rest

/-- Python `pat in s` on `String`. -/
def strContains (s pat : String) : Bool :=
  containsSub pat.data s.data

/-- `col.astype(float).astype(pd.Int64Dtype())` on a nullable float column:
pandas masks the nulls and then safe-casts the remaining float values to
64-bit integers, raising `TypeError: cannot safely cast non-equivalent
float64 to int64` when some value is not exactly integral (the safe cast
compares the truncated integers with the original floats). -/
def astypeFloatInt64 : List (Option Rat) → Except String (List (Option Int))
  | [] => Except.ok []
  | none :: rest => (astypeFloatInt64 rest).map (fun t => none :: t)
  | some q :: rest =>
    if q.den = 1 then (astypeFloatInt64 rest).map (fun t => some q.num :: t)
    else Except.error "cannot safely cast non-equivalent float64 to int64"

/-- Modelled from the spec: "coerced to nullable integer (float parse then
round to nearest int, preserving nulls)" — the claimed semantics of the
`ds_` coercion, for comparison with `astypeFloatInt64`. -/
def coerceDsSpec (col : List (Option Rat)) : List (Option Int) :=
  col.map (Option.map (fun q => round q))

/-- `r_dict = {"Male": 1, "Female": 0}` applied by `Series.replace`: the
two mapped strings become integers, anything else is left unchanged. -/
def r_dict (v : String) : Int ⊕ String :=
  if v = "Male" then Sum.inl 1 else if v = "Female" then Sum.inl 0 else Sum.inr v

/-- Digit-string parser for Python `int()`: digits with single underscores
allowed between digits. -/
def parseDigitsAux (acc : Nat) : List Char → Option Nat
  | [] => some acc
  | c :: rest =>
    if c.isDigit then parseDigitsAux (acc * 10 + (c.toNat - 48)) rest
    else if c = '_' then
      match rest with
      | d :: rest2 =>
        if d.isDigit then parseDigitsAux (acc * 10 + (d.toNat - 48)) rest2 else none
      | [] => none
    else none

/-- A nonempty digit string must start with a digit. -/
def parseDigits : List Char → Option Nat
  | [] => none
  | c :: rest => if c.isDigit then parseDigitsAux (c.toNat - 48) rest else none

/-- Python `int(s)` for a decimal string: optional surrounding whitespace,
optional sign, then digits (with underscore separators); `none` when the
string is not a valid integer literal (`ValueError`). -/
def pyInt (s : String) : Option Int :=
  match pyStrip s.data with
  | '+' :: rest => (parseDigits rest).map Int.ofNat
  | '-' :: rest => (parseDigits rest).map (fun n => -(n : Int))
  | l => (parseDigits l).map Int.ofNat

/-- `Series.astype("int64")` on an object column of integers and strings:
numpy converts each element with Python `int`, raising `ValueError` for a
string that is not an integer literal. -/
def astypeInt64Object : List (Int ⊕ String) → Except String (List Int)
  | [] => Except.ok []
  | Sum.inl n :: rest => (astypeInt64Object rest).map (fun t => n :: t)
  | Sum.inr s :: rest =>
    match pyInt s with
    | some n => (astypeInt64Object rest).map (fun t => n :: t)
    | none => Except.error ("invalid literal for int with base 10: " ++ s)

/-- The whole `male` coercion:
`ext_people["male"].replace(r_dict).astype("int64")`. -/
def male_column (sexCol : List String) : Except String (List Int) :=
  astypeInt64Object (sexCol.map r_dict)

/-- One bin table (cell 12): re-filter the raw `compas` table by the
sentinel, restrict to one assessment type, project
`(raw_score, decile_score, score_text)`, and `dropna` the projection. -/
def binsFor (l : List CompasRow) (ty : String) : List (Rat × Int × String) :=
  ((l.filter (fun r => !(r.score_text == some "N/A"))).filter
      (fun r => r.type_of_assessment == ty)).filterMap
    (fun r =>
      match r.raw_score, r.decile_score, r.score_text with
      | some a, some b, some c => some (a, b, c)
      | _, _, _ => none)

/-- `fta_bins`. -/
def fta_bins (l : List CompasRow) : List (Rat × Int × String) :=
  binsFor l "Risk of Failure to Appear"

/-- `grecid_bins`. -/
def grecid_bins (l : List CompasRow) : List (Rat × Int × String) :=
  binsFor l "Risk of Recidivism"

/-- `vrecid_bins`. -/
def vrecid_bins (l : List CompasRow) : List (Rat × Int × String) :=
  binsFor l "Risk of Violence"

/-- The exact rational 3.2 (a raw-score literal of the spec's example). -/
def q_3_2 : Rat :=
  Rat.mk' 16 5 (by norm_num) (by norm_num)

/-- The exact rational 1.1 (a raw-score literal of the spec's example). -/
def q_1_1 : Rat :=
  Rat.mk' 11 10 (by norm_num) (by norm_num)

/-- The exact rational 3.7, a non-integral score value. -/
def q_3_7 : Rat :=
  Rat.mk' 37 10 (by norm_num) (by norm_num)

/-- Example assessment table: person 1 with one valid row per assessment
type (the list is already sorted for both sort keys in play, and its types
are distinct and alphabetical). -/
def exampleRows : List CompasRow :=
  [⟨1, 10, "Risk of Failure to Appear", some q_1_1, some 3, some "Low", some "Single", some 1⟩,
   ⟨1, 10, "Risk of Recidivism", some q_1_1, some 2, some "Low", some "Single", some 1⟩,
   ⟨1, 10, "Risk of Violence", some q_3_2, some 4, some "Medium", some "Single", some 1⟩]

/-- Example assessment table extending `exampleRows` with a sentinel-scored
row for a second person. -/
def exampleRowsNA : List CompasRow :=
  exampleRows ++ [⟨2, 11, "Risk of Violence", some q_3_2, some 4, some "N/A", some "Single", some 1⟩]

section SortLemmas

variable {α : Type}

/-- The filtered sorted list is a permutation of the filtered list. -/
theorem filter_mergeSort_perm (le : α → α → Bool) (q : α → Bool) (l : List α) :
    ((l.mergeSort le).filter q).Perm (l.filter q) :=
  (List.mergeSort_perm l le).filter q

/-- The head of a filtered sorted list is a minimal element of the filtered
list (for a transitive total boolean comparison). -/
theorem head?_filter_mergeSort_min (le : α → α → Bool)
    (htrans : ∀ a b c, le a b → le b c → le a c)
    (htotal : ∀ a b, le a b || le b a)
    (q : α → Bool) (l : List α) (x : α)
    (hx : ((l.mergeSort le).filter q).head? = some x) :
    x ∈ l.filter q ∧ ∀ y ∈ l.filter q, le x y := by
  have hsorted : ((l.mergeSort le).filter q).Pairwise (fun a b => le a b) :=
    List.Pairwise.sublist (List.filter_sublist _) (List.sorted_mergeSort htrans htotal l)
  have hperm := filter_mergeSort_perm le q l
  match hfl : (l.mergeSort le).filter q with
  | [] => rw [hfl] at hx; simp at hx
  | z :: t =>
    rw [hfl] at hx
    simp only [List.head?_cons, Option.some.injEq] at hx
    rw [hfl] at hsorted hperm
    rw [← hx]
    have hzz : le z z := by
      have := htotal z z
      simpa using this
    constructor
    · exact hperm.mem_iff.mp (List.mem_cons_self z t)
    · intro y hy
      have hy' : y ∈ z :: t := hperm.mem_iff.mpr hy
      rcases List.mem_cons.mp hy' with h | h
      · subst h; exact hzz
      · exact (List.pairwise_cons.mp hsorted).1 y h

end SortLemmas

/-- The fold computing the spec-side minimum returns an element of the list. -/
theorem foldl_minDate_mem (ds : List Date) (d : Date) :
    ds.foldl (fun a b => if dateKey b < dateKey a then b else a) d ∈ d :: ds := by
  induction ds generalizing d with
  | nil => simp
  | cons e es ih =>
    simp only [List.foldl_cons]
    by_cases hc : dateKey e < dateKey d
    · simp only [if_pos hc]
      rcases List.mem_cons.mp (ih e) with h | h
      · rw [h]; simp
      · simp [h]
    · simp only [if_neg hc]
      rcases List.mem_cons.mp (ih d) with h | h
      · rw [h]; simp
      · simp [h]

/-- The fold computing the spec-side minimum is a lower bound for the list. -/
theorem foldl_minDate_le (ds : List Date) (d : Date) :
    ∀ e ∈ d :: ds,
      dateKey (ds.foldl (fun a b => if dateKey b < dateKey a then b else a) d) ≤ dateKey e := by
  induction ds generalizing d with
  | nil => simp
  | cons e es ih =>
    intro f hf
    simp only [List.foldl_cons]
    rcases List.mem_cons.mp hf with h | h
    · subst h
      have h1 := ih (if dateKey e < dateKey f then e else f) _
        (List.mem_cons_self _ _)
      by_cases hc : dateKey e < dateKey f <;> simp [hc] at h1 ⊢ <;> omega
    · rcases List.mem_cons.mp h with h2 | h2
      · subst h2
        have h1 := ih (if dateKey f < dateKey d then f else d) _
          (List.mem_cons_self _ _)
        by_cases hc : dateKey f < dateKey d <;> simp [hc] at h1 ⊢ <;> omega
      · exact ih _ _ (List.mem_cons_of_mem _ h2)

/-- `dateKey` is injective on well-formed dates (the positional encoding of
a `"YYYY-MM-DD"` string). -/
theorem dateKey_injOn {a b : Date} (ha : validDate a) (hb : validDate b)
    (h : dateKey a = dateKey b) : a = b := by
  obtain ⟨ay, am, ad⟩ := a
  obtain ⟨by_, bm, bd⟩ := b
  simp only [validDate] at ha hb
  simp only [dateKey] at h
  simp only [Date.mk.injEq]
  omega

/-- The arrest-date comparison is transitive. -/
theorem arrestLE_trans : ∀ a b c : ArrestRow, arrestLE a b → arrestLE b c → arrestLE a c := by
  intro a b c
  simp only [arrestLE, decide_eq_true_eq]
  omega

/-- The arrest-date comparison is total. -/
theorem arrestLE_total : ∀ a b : ArrestRow, arrestLE a b || arrestLE b a := by
  intro a b
  simp only [arrestLE, Bool.or_eq_true, decide_eq_true_eq]
  omega

/-- C1: for a person with at least one arrest record, `age_at_first_arrest`
is `round((dmin − dob).days / 365.25)` where `dmin` is the minimum arrest
date over that person's records (the sort-then-first computation agrees
with the direct minimum); `(days/365.25)` is the exact rational
`days*4/1461` fed to Python `round`. -/
theorem age_at_first_arrest_min_formula (arrests : List ArrestRow) (dob : Date) (age : Int)
    (p : Nat)
    (hval : ∀ r ∈ arrests, validDate r.arrest_date)
    (hne : arrests.filter (fun r => r.person_id == p) ≠ []) :
    ∃ dmin, first_arrest_date arrests p = some dmin ∧
      earliestArrestDate arrests p = some dmin ∧
      dmin ∈ (arrests.filter (fun r => r.person_id == p)).map (·.arrest_date) ∧
      (∀ d ∈ (arrests.filter (fun r => r.person_id == p)).map (·.arrest_date),
        dateKey dmin ≤ dateKey d) ∧
      age_at_first_arrest arrests dob age p
        = pyRoundDiv ((daysFromCivil dmin - daysFromCivil dob) * 4) 1461 := by
  have hperm := filter_mergeSort_perm arrestLE (fun r => r.person_id == p) arrests
  have hsne : (sortedArrests arrests).filter (fun r => r.person_id == p) ≠ [] := by
    intro hnil
    exact hne ((hnil ▸ hperm).symm.eq_nil)
  match hfl : ((sortedArrests arrests).filter (fun r => r.person_id == p)).head? with
  | none =>
    rw [List.head?_eq_none_iff] at hfl
    exact absurd hfl hsne
  | some x =>
    have hmin := head?_filter_mergeSort_min arrestLE arrestLE_trans arrestLE_total
      (fun r => r.person_id == p) arrests x hfl
    obtain ⟨hxmem, hxle⟩ := hmin
    refine ⟨x.arrest_date, ?_, ?_, ?_, ?_, ?_⟩
    · simp [first_arrest_date, hfl]
    · -- the spec-side fold computes the same date
      have hmem' : x.arrest_date ∈ (arrests.filter (fun r => r.person_id == p)).map
          (·.arrest_date) := List.mem_map_of_mem _ hxmem
      match hml : (arrests.filter (fun r => r.person_id == p)).map (·.arrest_date) with
      | [] => rw [hml] at hmem'; simp at hmem'
      | d :: ds =>
        rw [hml] at hmem'
        simp only [earliestArrestDate, hml, Option.some.injEq]
        have hm_mem : ds.foldl (fun a b => if dateKey b < dateKey a then b else a) d
            ∈ d :: ds := foldl_minDate_mem ds d
        have hm_le := foldl_minDate_le ds d
        -- both are key-minimal members, and keys are injective on valid dates
        have hvalall : ∀ e ∈ d :: ds, validDate e := by
          intro e he
          rw [← hml] at he
          obtain ⟨r, hr, hre⟩ := List.mem_map.mp he
          exact hre ▸ hval r (List.mem_of_mem_filter hr)
        have h1 : dateKey (ds.foldl (fun a b => if dateKey b < dateKey a then b else a) d)
            ≤ dateKey x.arrest_date := hm_le _ hmem'
        have h2 : dateKey x.arrest_date
            ≤ dateKey (ds.foldl (fun a b => if dateKey b < dateKey a then b else a) d) := by
          have hm_mem' := hm_mem
          rw [← hml] at hm_mem'
          obtain ⟨r, hr, hre⟩ := List.mem_map.mp hm_mem'
          have hle := hxle r hr
          simp only [arrestLE, decide_eq_true_eq] at hle
          rw [← hre]
          exact hle
        exact dateKey_injOn (hvalall _ hm_mem) (hvalall _ hmem') (Nat.le_antisymm h1 h2)
    · exact List.mem_map_of_mem _ hxmem
    · intro d hd
      obtain ⟨r, hr, hre⟩ := List.mem_map.mp hd
      have hle := hxle r hr
      simp only [arrestLE, decide_eq_true_eq] at hle
      rw [← hre]
      exact hle
    · simp [age_at_first_arrest, first_arrest_date, hfl, time_diff]

/-- C2: for a person with no arrest record, `age_at_first_arrest` is the
person's stated `age` (the `"No_arrest"` fallback branch of `time_diff`),
not a computed date difference. -/
theorem age_at_first_arrest_no_arrest (arrests : List ArrestRow) (dob : Date) (age : Int)
    (p : Nat) (h : arrests.filter (fun r => r.person_id == p) = []) :
    age_at_first_arrest arrests dob age p = age := by
  have hperm := filter_mergeSort_perm arrestLE (fun r => r.person_id == p) arrests
  rw [h] at hperm
  have hnil := hperm.eq_nil
  simp only [age_at_first_arrest, first_arrest_date, sortedArrests, hnil, List.head?_nil,
    Option.map_none', time_diff]

/-- Witness for C1 at the spec's example: dob 1980-01-01, a single arrest
on 2000-01-01, stated age 40; the derived age at first arrest is 20. -/
theorem age_at_first_arrest_min_formula_witness :
    (∀ r ∈ ([⟨1, ⟨2000, 1, 1⟩⟩] : List ArrestRow), validDate r.arrest_date) ∧
    ([(⟨1, ⟨2000, 1, 1⟩⟩ : ArrestRow)].filter (fun r => r.person_id == 1) ≠ []) ∧
    (∃ dmin, first_arrest_date [⟨1, ⟨2000, 1, 1⟩⟩] 1 = some dmin ∧
      earliestArrestDate [⟨1, ⟨2000, 1, 1⟩⟩] 1 = some dmin ∧
      dmin ∈ (([⟨1, ⟨2000, 1, 1⟩⟩] : List ArrestRow).filter
        (fun r => r.person_id == 1)).map (·.arrest_date) ∧
      (∀ d ∈ (([⟨1, ⟨2000, 1, 1⟩⟩] : List ArrestRow).filter
          (fun r => r.person_id == 1)).map (·.arrest_date),
        dateKey dmin ≤ dateKey d) ∧
      age_at_first_arrest [⟨1, ⟨2000, 1, 1⟩⟩] ⟨1980, 1, 1⟩ 40 1
        = pyRoundDiv ((daysFromCivil dmin - daysFromCivil ⟨1980, 1, 1⟩) * 4) 1461) ∧
    age_at_first_arrest [⟨1, ⟨2000, 1, 1⟩⟩] ⟨1980, 1, 1⟩ 40 1 = 20 := by
  refine ⟨by decide, by decide,
    age_at_first_arrest_min_formula [⟨1, ⟨2000, 1, 1⟩⟩] ⟨1980, 1, 1⟩ 40 1
      (by decide) (by decide), ?_⟩
  simp only [age_at_first_arrest, first_arrest_date, sortedArrests, List.mergeSort_singleton]
  decide

/-- Witness for C2 at the spec's example: no arrest row, stated age 35. -/
theorem age_at_first_arrest_no_arrest_witness :
    ([] : List ArrestRow).filter (fun r => r.person_id == 1) = [] ∧
    age_at_first_arrest [] ⟨1980, 1, 1⟩ 35 1 = 35 :=
  ⟨rfl, age_at_first_arrest_no_arrest [] ⟨1980, 1, 1⟩ 35 1 rfl⟩

/-- The compas sort comparison is transitive. -/
theorem compasLE_trans : ∀ a b c : CompasRow, compasLE a b → compasLE b c → compasLE a c := by
  intro a b c
  simp only [compasLE, Bool.or_eq_true, Bool.and_eq_true, decide_eq_true_eq, beq_iff_eq]
  omega

/-- The compas sort comparison is total. -/
theorem compasLE_total : ∀ a b : CompasRow, compasLE a b || compasLE b a := by
  intro a b
  simp only [compasLE, Bool.or_eq_true, Bool.and_eq_true, decide_eq_true_eq, beq_iff_eq]
  omega

/-- The head of a person's group in the sorted filtered table is a
`compasLE`-minimal element of that person's filtered rows. -/
theorem head?_group_min (l : List CompasRow) (p : Nat) (x : CompasRow)
    (hx : ((compas_df_sorted l).filter (fun r => r.person_id == p)).head? = some x) :
    x ∈ (compas_filtered l).filter (fun r => r.person_id == p) ∧
      ∀ y ∈ (compas_filtered l).filter (fun r => r.person_id == p), compasLE x y :=
  head?_filter_mergeSort_min compasLE compasLE_trans compasLE_total
    (fun r => r.person_id == p) (compas_filtered l) x hx

/-- Rows of the deduplicated table come from the sentinel-filtered table. -/
theorem mem_first_screening_filtered {l : List CompasRow} {r : CompasRow}
    (h : r ∈ first_screening_df l) : r ∈ compas_filtered l :=
  List.mem_mergeSort.mp (List.mem_of_mem_filter h)

/-- C3: a row survives the dedup merge iff it survived the sentinel filter
and its assessment identifier is the smallest one of its person among the
filtered rows; in particular every row achieving that minimum is kept, so
several assessment types sharing the smallest identifier are all kept. -/
theorem first_screening_df_mem_iff (l : List CompasRow) (r : CompasRow) :
    r ∈ first_screening_df l ↔
      r ∈ compas_filtered l ∧
        ∀ s ∈ compas_filtered l, s.person_id = r.person_id →
          r.compas_assessment_id ≤ s.compas_assessment_id := by
  constructor
  · intro h
    obtain ⟨hmem_sorted, hpred⟩ := List.mem_filter.mp h
    have hmemf : r ∈ compas_filtered l := List.mem_mergeSort.mp hmem_sorted
    refine ⟨hmemf, ?_⟩
    rw [beq_iff_eq] at hpred
    unfold first_screening_aid at hpred
    match hx : ((compas_df_sorted l).filter (fun s => s.person_id == r.person_id)).head? with
    | none =>
      rw [hx] at hpred
      simp at hpred
    | some x =>
      rw [hx] at hpred
      simp only [Option.map_some', Option.some.injEq] at hpred
      obtain ⟨hxmem, hxle⟩ := head?_group_min l r.person_id x hx
      have hxp : x.person_id = r.person_id := by
        have h2 := (List.mem_filter.mp hxmem).2
        simpa using h2
      intro s hs hsp
      have hsf : s ∈ (compas_filtered l).filter (fun t => t.person_id == r.person_id) :=
        List.mem_filter.mpr ⟨hs, by simp [hsp]⟩
      have hle := hxle s hsf
      simp only [compasLE, Bool.or_eq_true, Bool.and_eq_true, decide_eq_true_eq,
        beq_iff_eq] at hle
      omega
  · rintro ⟨hmem, hmin⟩
    apply List.mem_filter.mpr
    refine ⟨List.mem_mergeSort.mpr hmem, ?_⟩
    rw [beq_iff_eq]
    unfold first_screening_aid
    match hx : ((compas_df_sorted l).filter (fun s => s.person_id == r.person_id)).head? with
    | none =>
      rw [List.head?_eq_none_iff] at hx
      have hrf : r ∈ (compas_df_sorted l).filter (fun s => s.person_id == r.person_id) :=
        List.mem_filter.mpr ⟨List.mem_mergeSort.mpr hmem, by simp⟩
      rw [hx] at hrf
      simp at hrf
    | some x =>
      obtain ⟨hxmem, hxle⟩ := head?_group_min l r.person_id x hx
      have hxp : x.person_id = r.person_id := by
        have h2 := (List.mem_filter.mp hxmem).2
        simpa using h2
      have hrf2 : r ∈ (compas_filtered l).filter (fun t => t.person_id == r.person_id) :=
        List.mem_filter.mpr ⟨hmem, by simp⟩
      have h1 := hxle r hrf2
      simp only [compasLE, Bool.or_eq_true, Bool.and_eq_true, decide_eq_true_eq,
        beq_iff_eq] at h1
      have h2 := hmin x (List.mem_of_mem_filter hxmem) hxp
      rw [hx]
      simp only [Option.map_some', Option.some.injEq]
      omega

/-- C5: no sentinel-valued row reaches the outputs: every row feeding the
pivot has a score text other than `"N/A"`, no pivoted text cell carries the
sentinel, and no bin-table row carries the sentinel. -/
theorem sentinel_never_in_output (l : List CompasRow) :
    (∀ r ∈ first_screening_df l, r.score_text ≠ some "N/A") ∧
    (∀ p ty, pcell (first_screening_df l) p ty textCell ≠ some (Cell.str "N/A")) ∧
    (∀ t ∈ fta_bins l, t.2.2 ≠ "N/A") ∧
    (∀ t ∈ grecid_bins l, t.2.2 ≠ "N/A") ∧
    (∀ t ∈ vrecid_bins l, t.2.2 ≠ "N/A") := by
  have hfs : ∀ r ∈ first_screening_df l, r.score_text ≠ some "N/A" := by
    intro r hr
    have hrf := mem_first_screening_filtered hr
    have h2 := (List.mem_filter.mp hrf).2
    simpa using h2
  have hbins : ∀ ty, ∀ t ∈ binsFor l ty, t.2.2 ≠ "N/A" := by
    intro ty t ht
    obtain ⟨r, hrmem, hmatch⟩ := List.mem_filterMap.mp ht
    have hpred := (List.mem_filter.mp (List.mem_of_mem_filter hrmem)).2
    rcases hraw : r.raw_score with _ | a <;> rcases hdec : r.decile_score with _ | b <;>
      rcases htxt : r.score_text with _ | c <;>
      rw [hraw, hdec, htxt] at hmatch <;> simp only [Option.some.injEq] at hmatch
    all_goals first
      | exact absurd hmatch (by simp)
      | skip
    rw [← hmatch]
    rw [htxt] at hpred
    simpa using hpred
  refine ⟨hfs, ?_, hbins _, hbins _, hbins _⟩
  intro p ty hcell
  unfold pcell at hcell
  match hh : ((first_screening_df l).filter
      (fun r => r.person_id == p && r.type_of_assessment == ty)).head? with
  | none =>
    rw [hh] at hcell
    simp at hcell
  | some r =>
    rw [hh] at hcell
    simp only [Option.some_bind] at hcell
    have hrmem : r ∈ first_screening_df l :=
      List.mem_of_mem_filter (List.mem_of_mem_head? (by rw [hh]; rfl))
    unfold textCell at hcell
    rcases htxt : r.score_text with _ | c <;> rw [htxt] at hcell <;>
      simp only [Option.map_none', Option.map_some', Option.some.injEq] at hcell
    · exact Option.noConfusion hcell
    · cases hcell
      exact hfs r hrmem htxt

/-- C8: `dropna` keeps exactly the input rows having no null cell, so every
row written to the final person table is null-free. -/
theorem dropna_mem_iff (rows : List (List (Option Cell))) (row : List (Option Cell)) :
    row ∈ dropna rows ↔ row ∈ rows ∧ ∀ c ∈ row, c.isSome := by
  simp [dropna, List.mem_filter]

/-- Witness for C8 on a concrete two-row table: the null-free row is kept,
the row with a null is characterised as dropped by the same equivalence. -/
theorem dropna_mem_iff_witness :
    ([some (Cell.int 1)] ∈ dropna [[some (Cell.int 1)], [none]] ↔
      [some (Cell.int 1)] ∈ [[some (Cell.int 1)], [none]] ∧
        ∀ c ∈ [some (Cell.int 1)], c.isSome) ∧
    ([(none : Option Cell)] ∈ dropna [[some (Cell.int 1)], [none]] ↔
      [(none : Option Cell)] ∈ [[some (Cell.int 1)], [none]] ∧
        ∀ c ∈ [(none : Option Cell)], c.isSome) :=
  ⟨dropna_mem_iff [[some (Cell.int 1)], [none]] [some (Cell.int 1)],
    dropna_mem_iff [[some (Cell.int 1)], [none]] [none]⟩

/-- Witness for C5 on a concrete table containing a sentinel row: the
pivoted text cell of the sentinel person's type is not the sentinel, and
the failure-to-appear bin row of the table is not sentinel-labelled. -/
theorem sentinel_never_in_output_witness :
    pcell (first_screening_df exampleRowsNA) 2 "Risk of Violence" textCell
        ≠ some (Cell.str "N/A") ∧
    ((q_1_1, (3 : Int), "Low") ∈ fta_bins exampleRowsNA →
      ((q_1_1, (3 : Int), "Low") : Rat × Int × String).2.2 ≠ "N/A") :=
  ⟨(sentinel_never_in_output exampleRowsNA).2.1 2 "Risk of Violence",
    (sentinel_never_in_output exampleRowsNA).2.2.1 (q_1_1, (3 : Int), "Low")⟩

/-- C7 counterexample: the substring renaming is order-dependent.  In the
notebook's dictionary order the column `score_text_risk_of_violence`
becomes `vrecid_text`, but applying the same entries in reverse order
(a permutation of the mapping) leaves `score_text_vrecid`, because the
`score_text_vrecid` rule only matches after `risk_of_violence` has been
rewritten. -/
theorem apply_repl_order_dependent_cex :
    apply_repl repl "score_text_risk_of_violence" = "vrecid_text" ∧
    repl.reverse.Perm repl ∧
    apply_repl repl.reverse "score_text_risk_of_violence" = "score_text_vrecid" ∧
    ("score_text_vrecid" : String) ≠ "vrecid_text" :=
  ⟨by decide, List.reverse_perm repl, by decide, by decide⟩

/-- C7 amended: the renaming applied in the notebook's fixed dictionary
order yields the final column names (`rs_vrecid`, `ds_vrecid`,
`vrecid_text`, and so on, leaving unmapped names unchanged), but it is
order-dependent: some permutation of the mapping's entries produces a
different name for `score_text_risk_of_violence`. -/
theorem apply_repl_fixed_order :
    apply_repl repl "raw_score_risk_of_violence" = "rs_vrecid" ∧
    apply_repl repl "decile_score_risk_of_violence" = "ds_vrecid" ∧
    apply_repl repl "score_text_risk_of_violence" = "vrecid_text" ∧
    apply_repl repl "raw_score_risk_of_recidivism" = "rs_grecid" ∧
    apply_repl repl "decile_score_risk_of_recidivism" = "ds_grecid" ∧
    apply_repl repl "score_text_risk_of_recidivism" = "grecid_text" ∧
    apply_repl repl "raw_score_risk_of_failure_to_appear" = "rs_fta" ∧
    apply_repl repl "decile_score_risk_of_failure_to_appear" = "ds_fta" ∧
    apply_repl repl "score_text_risk_of_failure_to_appear" = "fta_text" ∧
    apply_repl repl "sex" = "male" ∧
    apply_repl repl "rec_supervision_level" = "slevel" ∧
    apply_repl repl "marital_status" = "marital_status" ∧
    apply_repl repl "age_at_first_arrest" = "age_at_first_arrest" ∧
    ∃ prs, prs.Perm repl ∧
      apply_repl prs "score_text_risk_of_violence"
        ≠ apply_repl repl "score_text_risk_of_violence" :=
  ⟨by decide, by decide, by decide, by decide, by decide, by decide, by decide, by decide,
    by decide, by decide, by decide, by decide, by decide,
    repl.reverse, List.reverse_perm repl, by decide⟩

/-- C6 counterexample: on the non-integral value 3.7, the notebook's
coercion `astype(float).astype(pd.Int64Dtype())` raises the pandas
safe-cast error instead of rounding to the nearest integer 4 as the claim
states. -/
theorem ds_coercion_cex :
    astypeFloatInt64 [some q_3_7]
        = Except.error "cannot safely cast non-equivalent float64 to int64" ∧
    coerceDsSpec [some q_3_7] = [some 4] := by
  constructor
  · rfl
  · have h : round q_3_7 = 4 := by
      have h2 : q_3_7 = (37 : ℚ) / 10 := by
        unfold q_3_7
        rw [Rat.mk'_eq_divInt, Rat.divInt_eq_div]
        norm_num
      rw [h2, round_eq]
      norm_num
    simp [coerceDsSpec, h]

/-- C6 amended: the `ds_` coercion converts a column exactly: when every
non-null value is integral it yields that integer column with nulls
preserved, and when some non-null value is non-integral it raises the
pandas safe-cast error (it never rounds). -/
theorem ds_column_coercion (col : List (Option Rat)) :
    ((∀ x ∈ col, ∀ q : Rat, x = some q → q.den = 1) →
      astypeFloatInt64 col = Except.ok (col.map (Option.map Rat.num))) ∧
    ((∃ q : Rat, some q ∈ col ∧ q.den ≠ 1) →
      astypeFloatInt64 col
        = Except.error "cannot safely cast non-equivalent float64 to int64") := by
  induction col with
  | nil =>
    constructor
    · intro _
      rfl
    · rintro ⟨q, hq, _⟩
      simp at hq
  | cons x rest ih =>
    constructor
    · intro h
      have hr := ih.1 (fun y hy => h y (List.mem_cons_of_mem _ hy))
      cases x with
      | none =>
        simp [astypeFloatInt64, hr, Except.map]
      | some q =>
        have hq : q.den = 1 := h (some q) (List.mem_cons_self _ _) q rfl
        simp [astypeFloatInt64, hq, hr, Except.map]
    · rintro ⟨q, hq, hden⟩
      rcases List.mem_cons.mp hq with heq | hmem
      · rw [← heq]
        simp [astypeFloatInt64, hden]
      · have hr := ih.2 ⟨q, hmem, hden⟩
        cases x with
        | none =>
          simp [astypeFloatInt64, hr, Except.map]
        | some q2 =>
          by_cases h2 : q2.den = 1 <;> simp [astypeFloatInt64, h2, hr, Except.map]

/-- Witness for C6 (amended): an integral column converts exactly with the
null preserved, and a column containing 3.7 raises the safe-cast error. -/
theorem ds_column_coercion_witness :
    astypeFloatInt64 [some (Rat.mk' 3 1 (by norm_num) (by norm_num)), none]
        = Except.ok [some 3, none] ∧
    astypeFloatInt64 [some q_3_7]
        = Except.error "cannot safely cast non-equivalent float64 to int64" := by
  constructor
  · have h := (ds_column_coercion [some (Rat.mk' 3 1 (by norm_num) (by norm_num)), none]).1
      (by
        intro x hx q hxq
        rcases List.mem_cons.mp hx with h1 | h1
        · rw [h1] at hxq
          cases hxq
          rfl
        · simp only [List.mem_singleton] at h1
          rw [h1] at hxq
          exact Option.noConfusion hxq)
    exact h.trans (by rfl)
  · exact (ds_column_coercion [some q_3_7]).2 ⟨q_3_7, by decide, by decide⟩

/-- Unfolding of the `male` coercion when the head value is dict-mapped. -/
theorem male_column_cons_inl (a : String) (rest : List String) (n : Int)
    (hr : r_dict a = Sum.inl n) :
    male_column (a :: rest) = (male_column rest).map (fun t => n :: t) := by
  simp [male_column, astypeInt64Object, hr]

/-- Unfolding of the `male` coercion when the head value is an unmapped
string that parses as an integer. -/
theorem male_column_cons_parse (a : String) (rest : List String) (s : String) (n : Int)
    (hr : r_dict a = Sum.inr s) (hpy : pyInt s = some n) :
    male_column (a :: rest) = (male_column rest).map (fun t => n :: t) := by
  simp [male_column, astypeInt64Object, hr, hpy]

/-- Unfolding of the `male` coercion when the head value is an unmapped
string that does not parse as an integer. -/
theorem male_column_cons_bad (a : String) (rest : List String) (s : String)
    (hr : r_dict a = Sum.inr s) (hpy : pyInt s = none) :
    male_column (a :: rest) = Except.error ("invalid literal for int with base 10: " ++ s) := by
  simp [male_column, astypeInt64Object, hr, hpy]

/-- C9 counterexample: the sex value `"7"` lies outside the two mapped
strings, yet the coercion does not raise: numpy's object-to-int64 cast
parses it with Python `int`, so the person table would be written with the
out-of-range value `male = 7`. -/
theorem male_numeric_string_cex :
    male_column ["7"] = Except.ok [7] ∧ (7 : Int) ≠ 1 ∧ (7 : Int) ≠ 0 :=
  ⟨rfl, by decide, by decide⟩

/-- C9 amended: when the coercion succeeds, `"Male"` maps to 1, `"Female"`
to 0, and any other sex value to its Python integer parse (so a successful
run can still write an out-of-range `male` value); the coercion raises
exactly when some unmapped sex value is not an integer literal. -/
theorem male_column_semantics (col : List String) :
    (∀ out, male_column col = Except.ok out →
      List.Forall₂ (fun s v => (s = "Male" → v = 1) ∧ (s = "Female" → v = 0) ∧
        (s ≠ "Male" → s ≠ "Female" → pyInt s = some v)) col out) ∧
    ((∃ s ∈ col, s ≠ "Male" ∧ s ≠ "Female" ∧ pyInt s = none) →
      ∃ msg, male_column col = Except.error msg) := by
  induction col with
  | nil =>
    constructor
    · intro out hout
      simp only [male_column, List.map_nil, astypeInt64Object, Except.ok.injEq] at hout
      rw [← hout]
      exact List.Forall₂.nil
    · rintro ⟨s, hs, _⟩
      simp at hs
  | cons a rest ih =>
    have hcase : (a = "Male" ∧ r_dict a = Sum.inl 1) ∨ (a = "Female" ∧ r_dict a = Sum.inl 0) ∨
        (a ≠ "Male" ∧ a ≠ "Female" ∧ r_dict a = Sum.inr a) := by
      unfold r_dict
      by_cases h1 : a = "Male"
      · exact Or.inl ⟨h1, by rw [if_pos h1]⟩
      · by_cases h2 : a = "Female"
        · exact Or.inr (Or.inl ⟨h2, by rw [if_neg h1, if_pos h2]⟩)
        · exact Or.inr (Or.inr ⟨h1, h2, by rw [if_neg h1, if_neg h2]⟩)
    constructor
    · intro out hout
      rcases hcase with ⟨ha, hr⟩ | ⟨ha, hr⟩ | ⟨h1, h2, hr⟩
      · rw [male_column_cons_inl a rest 1 hr] at hout
        cases hrest : male_column rest with
        | error e =>
          rw [hrest] at hout
          simp [Except.map] at hout
        | ok t =>
          rw [hrest] at hout
          simp only [Except.map, Except.ok.injEq] at hout
          rw [← hout]
          refine List.Forall₂.cons ⟨fun _ => rfl, fun hm => ?_, fun hm _ => ?_⟩ (ih.1 t hrest)
          · rw [ha] at hm
            exact absurd hm (by decide)
          · exact absurd ha hm
      · rw [male_column_cons_inl a rest 0 hr] at hout
        cases hrest : male_column rest with
        | error e =>
          rw [hrest] at hout
          simp [Except.map] at hout
        | ok t =>
          rw [hrest] at hout
          simp only [Except.map, Except.ok.injEq] at hout
          rw [← hout]
          refine List.Forall₂.cons ⟨fun hm => ?_, fun _ => rfl, fun _ hm => ?_⟩ (ih.1 t hrest)
          · rw [ha] at hm
            exact absurd hm (by decide)
          · exact absurd ha hm
      · cases hpy : pyInt a with
        | none =>
          rw [male_column_cons_bad a rest a hr hpy] at hout
          exact Except.noConfusion hout
        | some n =>
          rw [male_column_cons_parse a rest a n hr hpy] at hout
          cases hrest : male_column rest with
          | error e =>
            rw [hrest] at hout
            simp [Except.map] at hout
          | ok t =>
            rw [hrest] at hout
            simp only [Except.map, Except.ok.injEq] at hout
            rw [← hout]
            exact List.Forall₂.cons
              ⟨fun hm => absurd hm h1, fun hm => absurd hm h2, fun _ _ => hpy⟩ (ih.1 t hrest)
    · rintro ⟨s, hs, hsm, hsf, hpy⟩
      rcases List.mem_cons.mp hs with heq | hmem
      · subst heq
        have hr : r_dict s = Sum.inr s := by
          unfold r_dict
          rw [if_neg hsm, if_neg hsf]
        exact ⟨_, male_column_cons_bad s rest s hr hpy⟩
      · obtain ⟨msg, hmsg⟩ := ih.2 ⟨s, hmem, hsm, hsf, hpy⟩
        rcases hcase with ⟨_, hr⟩ | ⟨_, hr⟩ | ⟨_, _, hr⟩
        · exact ⟨msg, by rw [male_column_cons_inl a rest 1 hr, hmsg]; rfl⟩
        · exact ⟨msg, by rw [male_column_cons_inl a rest 0 hr, hmsg]; rfl⟩
        · cases hpy2 : pyInt a with
          | none =>
            exact ⟨_, male_column_cons_bad a rest a hr hpy2⟩
          | some n =>
            exact ⟨msg, by rw [male_column_cons_parse a rest a n hr hpy2, hmsg]; rfl⟩

/-- Witness for C9 (amended): on the column `["Male", "Female"]` the
coercion succeeds with values 1 and 0, and on `["Male", "abc"]` it raises
because `"abc"` is not an integer literal. -/
theorem male_column_semantics_witness :
    List.Forall₂ (fun s v => (s = "Male" → v = 1) ∧ (s = "Female" → v = 0) ∧
        (s ≠ "Male" → s ≠ "Female" → pyInt s = some v)) ["Male", "Female"]
      ([1, 0] : List Int) ∧
    (∃ msg, male_column ["Male", "abc"] = Except.error msg) :=
  ⟨(male_column_semantics ["Male", "Female"]).1 [1, 0] rfl,
    (male_column_semantics ["Male", "abc"]).2 ⟨"abc", by decide, by decide, by decide, rfl⟩⟩

/-- `find?` over a name-keyed mapped section locates the looked-up type's
entry when the naming is injective on the section's types. -/
theorem find?_map_section {β : Type} (tys : List String) (nm : String → String)
    (cv : String → β) (ty0 : String) (h0 : ty0 ∈ tys)
    (hinj : ∀ a ∈ tys, nm a = nm ty0 → a = ty0) :
    (tys.map (fun ty => (nm ty, cv ty))).find? (fun kv => kv.1 == nm ty0)
      = some (nm ty0, cv ty0) := by
  induction tys with
  | nil => simp at h0
  | cons t ts ih =>
    simp only [List.map_cons]
    by_cases he : nm t = nm ty0
    · have ht : t = ty0 := hinj t (List.mem_cons_self _ _) he
      subst ht
      rw [List.find?_cons_of_pos _ (by simp)]
    · rw [List.find?_cons_of_neg _ (by simp [he])]
      apply ih
      · rcases List.mem_cons.mp h0 with h | h
        · exact absurd (show nm t = nm ty0 by rw [h]) he
        · exact h
      · intro a ha hna
        exact hinj a (List.mem_cons_of_mem _ ha) hna

/-- `find?` over a name-keyed mapped section misses when no type of the
section is named like the target. -/
theorem find?_map_section_none {β : Type} (tys : List String) (nm : String → String)
    (cv : String → β) (target : String) (h : ∀ a ∈ tys, nm a ≠ target) :
    (tys.map (fun ty => (nm ty, cv ty))).find? (fun kv => kv.1 == target) = none := by
  rw [List.find?_eq_none]
  intro x hx
  obtain ⟨a, ha, rfl⟩ := List.mem_map.mp hx
  simp [h a ha]

/-- On the three value-column names and the three assessment types, the
pivot's flattened column naming is injective. -/
theorem pivotColName_inj_on_types (v w a b : String)
    (hv : v = "raw_score" ∨ v = "decile_score" ∨ v = "score_text")
    (hw : w = "raw_score" ∨ w = "decile_score" ∨ w = "score_text")
    (ha : a ∈ assessmentTypes) (hb : b ∈ assessmentTypes)
    (h : pivotColName v a = pivotColName w b) : v = w ∧ a = b := by
  simp only [assessmentTypes, List.mem_cons, List.not_mem_nil, or_false] at ha hb
  rcases hv with rfl | rfl | rfl <;> rcases hw with rfl | rfl | rfl <;>
    rcases ha with rfl | rfl | rfl <;> rcases hb with rfl | rfl | rfl <;>
      revert h <;> decide

/-- C4: pivot round-trip.  For a person whose filtered and deduplicated
table has exactly one row of a given assessment type, the wide-table row
returns that row's raw score, decile score and score text unchanged, under
the column names obtained by joining the value-column name and the type
name with an underscore, stripping, replacing spaces by underscores and
lower-casing. -/
theorem pivot_round_trip (l : List CompasRow) (p : Nat) (r : CompasRow)
    (hall : ∀ s ∈ first_screening_df l, s.type_of_assessment ∈ assessmentTypes)
    (huniq : (first_screening_df l).filter
        (fun s => s.person_id == p && s.type_of_assessment == r.type_of_assessment) = [r]) :
    lookupCol (pivotColName "raw_score" r.type_of_assessment)
        (pivoted_row (first_screening_df l) p) = some (r.raw_score.map Cell.rat) ∧
    lookupCol (pivotColName "decile_score" r.type_of_assessment)
        (pivoted_row (first_screening_df l) p) = some (r.decile_score.map Cell.int) ∧
    lookupCol (pivotColName "score_text" r.type_of_assessment)
        (pivoted_row (first_screening_df l) p) = some (r.score_text.map Cell.str) := by
  have hrmem : r ∈ first_screening_df l := by
    have hm : r ∈ (first_screening_df l).filter
        (fun s => s.person_id == p && s.type_of_assessment == r.type_of_assessment) := by
      rw [huniq]
      exact List.mem_singleton.mpr rfl
    exact List.mem_of_mem_filter hm
  have hty : r.type_of_assessment ∈ assessmentTypes := hall r hrmem
  have htyP : r.type_of_assessment ∈ pivotTypes (first_screening_df l) := by
    unfold pivotTypes
    exact List.mem_mergeSort.mpr (List.mem_dedup.mpr (List.mem_map_of_mem _ hrmem))
  have hsub : ∀ a ∈ pivotTypes (first_screening_df l), a ∈ assessmentTypes := by
    intro a hamem
    unfold pivotTypes at hamem
    obtain ⟨s, hsmem, hse⟩ := List.mem_map.mp (List.mem_dedup.mp (List.mem_mergeSort.mp hamem))
    exact hse ▸ hall s hsmem
  have hcell : ∀ f, pcell (first_screening_df l) p r.type_of_assessment f = f r := by
    intro f
    unfold pcell
    rw [huniq]
    rfl
  have hinjR : ∀ a ∈ pivotTypes (first_screening_df l),
      pivotColName "raw_score" a = pivotColName "raw_score" r.type_of_assessment →
        a = r.type_of_assessment :=
    fun a ha he =>
      (pivotColName_inj_on_types _ _ a _ (Or.inl rfl) (Or.inl rfl) (hsub a ha) hty he).2
  have hinjD : ∀ a ∈ pivotTypes (first_screening_df l),
      pivotColName "decile_score" a = pivotColName "decile_score" r.type_of_assessment →
        a = r.type_of_assessment :=
    fun a ha he =>
      (pivotColName_inj_on_types _ _ a _ (Or.inr (Or.inl rfl)) (Or.inr (Or.inl rfl))
        (hsub a ha) hty he).2
  have hinjT : ∀ a ∈ pivotTypes (first_screening_df l),
      pivotColName "score_text" a = pivotColName "score_text" r.type_of_assessment →
        a = r.type_of_assessment :=
    fun a ha he =>
      (pivotColName_inj_on_types _ _ a _ (Or.inr (Or.inr rfl)) (Or.inr (Or.inr rfl))
        (hsub a ha) hty he).2
  have hneRD : ∀ a ∈ pivotTypes (first_screening_df l),
      pivotColName "raw_score" a ≠ pivotColName "decile_score" r.type_of_assessment := by
    intro a ha he
    have h2 := (pivotColName_inj_on_types "raw_score" "decile_score" a r.type_of_assessment
      (Or.inl rfl) (Or.inr (Or.inl rfl)) (hsub a ha) hty he).1
    exact absurd h2 (by decide)
  have hneRT : ∀ a ∈ pivotTypes (first_screening_df l),
      pivotColName "raw_score" a ≠ pivotColName "score_text" r.type_of_assessment := by
    intro a ha he
    have h2 := (pivotColName_inj_on_types "raw_score" "score_text" a r.type_of_assessment
      (Or.inl rfl) (Or.inr (Or.inr rfl)) (hsub a ha) hty he).1
    exact absurd h2 (by decide)
  have hneDT : ∀ a ∈ pivotTypes (first_screening_df l),
      pivotColName "decile_score" a ≠ pivotColName "score_text" r.type_of_assessment := by
    intro a ha he
    have h2 := (pivotColName_inj_on_types "decile_score" "score_text" a r.type_of_assessment
      (Or.inr (Or.inl rfl)) (Or.inr (Or.inr rfl)) (hsub a ha) hty he).1
    exact absurd h2 (by decide)
  refine ⟨?_, ?_, ?_⟩
  · unfold lookupCol pivoted_row
    rw [List.find?_append, List.find?_append]
    rw [find?_map_section (pivotTypes (first_screening_df l)) (pivotColName "raw_score")
      (fun ty => pcell (first_screening_df l) p ty rawCell) r.type_of_assessment htyP hinjR]
    simp only [Option.or_some, Option.map_some']
    rw [hcell rawCell]
    rfl
  · unfold lookupCol pivoted_row
    rw [List.find?_append, List.find?_append]
    rw [find?_map_section_none (pivotTypes (first_screening_df l)) (pivotColName "raw_score")
      (fun ty => pcell (first_screening_df l) p ty rawCell)
      (pivotColName "decile_score" r.type_of_assessment) hneRD]
    rw [find?_map_section (pivotTypes (first_screening_df l)) (pivotColName "decile_score")
      (fun ty => pcell (first_screening_df l) p ty decileCell) r.type_of_assessment htyP hinjD]
    simp only [Option.none_or, Option.or_some, Option.map_some']
    rw [hcell decileCell]
    rfl
  · unfold lookupCol pivoted_row
    rw [List.find?_append, List.find?_append]
    rw [find?_map_section_none (pivotTypes (first_screening_df l)) (pivotColName "raw_score")
      (fun ty => pcell (first_screening_df l) p ty rawCell)
      (pivotColName "score_text" r.type_of_assessment) hneRT]
    rw [find?_map_section_none (pivotTypes (first_screening_df l)) (pivotColName "decile_score")
      (fun ty => pcell (first_screening_df l) p ty decileCell)
      (pivotColName "score_text" r.type_of_assessment) hneDT]
    rw [find?_map_section (pivotTypes (first_screening_df l)) (pivotColName "score_text")
      (fun ty => pcell (first_screening_df l) p ty textCell) r.type_of_assessment htyP hinjT]
    simp only [Option.none_or, Option.map_some']
    rw [hcell textCell]
    rfl

/-- Witness for C4 at the spec's example values: person 1's
Risk-of-Violence row (raw 3.2, decile 4, text Medium) is reproduced
unchanged in the wide-table columns `raw_score_risk_of_violence`,
`decile_score_risk_of_violence` and `score_text_risk_of_violence`. -/
theorem pivot_round_trip_witness :
    lookupCol "raw_score_risk_of_violence" (pivoted_row (first_screening_df exampleRows) 1)
        = some (some (Cell.rat q_3_2)) ∧
    lookupCol "decile_score_risk_of_violence" (pivoted_row (first_screening_df exampleRows) 1)
        = some (some (Cell.int 4)) ∧
    lookupCol "score_text_risk_of_violence" (pivoted_row (first_screening_df exampleRows) 1)
        = some (some (Cell.str "Medium")) := by
  have hs : compas_df_sorted exampleRows = compas_filtered exampleRows :=
    List.mergeSort_of_sorted (by decide)
  have h1 : first_screening_df exampleRows = exampleRows := by
    simp only [first_screening_df, first_screening_aid, hs]
    decide
  obtain ⟨ha, hb, hc⟩ := pivot_round_trip exampleRows 1
    ⟨1, 10, "Risk of Violence", some q_3_2, some 4, some "Medium", some "Single", some 1⟩
    (by rw [h1]; decide) (by rw [h1]; decide)
  have hn1 : pivotColName "raw_score" "Risk of Violence" = "raw_score_risk_of_violence" := by
    decide
  have hn2 : pivotColName "decile_score" "Risk of Violence"
      = "decile_score_risk_of_violence" := by decide
  have hn3 : pivotColName "score_text" "Risk of Violence"
      = "score_text_risk_of_violence" := by decide
  rw [hn1] at ha
  rw [hn2] at hb
  rw [hn3] at hc
  exact ⟨ha, hb, hc⟩

/-- C10: a person whose final row survives the null-row drop must have, for
every pivot column type (and in particular for all three assessment types
when all three occur in the retained table), a retained first-batch row of
that type whose raw score, decile score and score text are all non-null —
and that row is non-sentinel.  Contrapositively, a person with no valid
assessment or with fewer than all pivoted types in their retained batch
gets a null pivot cell from the left merge and is dropped before writing. -/
theorem person_in_output_has_full_batch (l : List CompasRow)
    (personCells : List (Option Cell)) (p : Nat) (rows : List (List (Option Cell)))
    (hrow : final_row_cells personCells l p ∈ dropna rows) :
    (∀ ty ∈ pivotTypes (first_screening_df l),
      ∃ r, r ∈ first_screening_df l ∧ r.person_id = p ∧ r.type_of_assessment = ty ∧
        r.raw_score.isSome ∧ r.decile_score.isSome ∧ r.score_text.isSome ∧
        r.score_text ≠ some "N/A") ∧
    ((∀ ty ∈ assessmentTypes, ty ∈ pivotTypes (first_screening_df l)) →
      ∀ ty ∈ assessmentTypes,
        ∃ r, r ∈ first_screening_df l ∧ r.person_id = p ∧ r.type_of_assessment = ty ∧
          r.raw_score.isSome ∧ r.decile_score.isSome ∧ r.score_text.isSome ∧
          r.score_text ≠ some "N/A") := by
  have hallc : ∀ c ∈ final_row_cells personCells l p, c.isSome := by
    unfold dropna at hrow
    have h2 := (List.mem_filter.mp hrow).2
    intro c hc
    exact List.all_eq_true.mp h2 c hc
  have hmerged : ∀ c ∈ merged_assess_cells l p, c.isSome := by
    intro c hc
    exact hallc c (List.mem_append_right personCells hc)
  have hpiv : ∀ c ∈ (pivoted_row (first_screening_df l) p).map (fun kv => kv.2), c.isSome := by
    intro c hc
    apply hmerged
    unfold merged_assess_cells
    exact List.mem_append_right _ hc
  have main : ∀ ty ∈ pivotTypes (first_screening_df l),
      ∃ r, r ∈ first_screening_df l ∧ r.person_id = p ∧ r.type_of_assessment = ty ∧
        r.raw_score.isSome ∧ r.decile_score.isSome ∧ r.score_text.isSome ∧
        r.score_text ≠ some "N/A" := by
    intro ty htyP
    have hcR : (pcell (first_screening_df l) p ty rawCell).isSome := by
      apply hpiv
      refine List.mem_map.mpr ⟨(pivotColName "raw_score" ty,
        pcell (first_screening_df l) p ty rawCell), ?_, rfl⟩
      unfold pivoted_row
      exact List.mem_append_left _
        (List.mem_append_left _ (List.mem_map_of_mem _ htyP))
    have hcD : (pcell (first_screening_df l) p ty decileCell).isSome := by
      apply hpiv
      refine List.mem_map.mpr ⟨(pivotColName "decile_score" ty,
        pcell (first_screening_df l) p ty decileCell), ?_, rfl⟩
      unfold pivoted_row
      exact List.mem_append_left _
        (List.mem_append_right _ (List.mem_map_of_mem _ htyP))
    have hcT : (pcell (first_screening_df l) p ty textCell).isSome := by
      apply hpiv
      refine List.mem_map.mpr ⟨(pivotColName "score_text" ty,
        pcell (first_screening_df l) p ty textCell), ?_, rfl⟩
      unfold pivoted_row
      exact List.mem_append_right _ (List.mem_map_of_mem _ htyP)
    unfold pcell at hcR hcD hcT
    rcases hh : ((first_screening_df l).filter
        (fun r => r.person_id == p && r.type_of_assessment == ty)).head? with _ | r
    · rw [hh] at hcR
      simp at hcR
    · rw [hh] at hcR hcD hcT
      simp only [Option.some_bind] at hcR hcD hcT
      have hrmem0 : r ∈ (first_screening_df l).filter
          (fun r => r.person_id == p && r.type_of_assessment == ty) :=
        List.mem_of_mem_head? (by rw [hh]; rfl)
      have hrmem : r ∈ first_screening_df l := List.mem_of_mem_filter hrmem0
      have hpred := (List.mem_filter.mp hrmem0).2
      simp only [Bool.and_eq_true, beq_iff_eq] at hpred
      have hsent : r.score_text ≠ some "N/A" := by
        have hrf := mem_first_screening_filtered hrmem
        have h2 := (List.mem_filter.mp hrf).2
        simpa using h2
      refine ⟨r, hrmem, hpred.1, hpred.2, ?_, ?_, ?_, hsent⟩
      · unfold rawCell at hcR
        rwa [Option.isSome_map'] at hcR
      · unfold decileCell at hcD
        rwa [Option.isSome_map'] at hcD
      · unfold textCell at hcT
        rwa [Option.isSome_map'] at hcT
  exact ⟨main, fun hcov ty hty => main ty (hcov ty hty)⟩

/-- Witness for C10: on the example table where person 1's batch holds all
three types with valid scores, the surviving final row yields a full valid
batch for the Risk-of-Violence type. -/
theorem person_in_output_has_full_batch_witness :
    ∃ r, r ∈ first_screening_df exampleRows ∧ r.person_id = 1 ∧
      r.type_of_assessment = "Risk of Violence" ∧
      r.raw_score.isSome ∧ r.decile_score.isSome ∧ r.score_text.isSome ∧
      r.score_text ≠ some "N/A" := by
  have hs : compas_df_sorted exampleRows = compas_filtered exampleRows :=
    List.mergeSort_of_sorted (by decide)
  have h1 : first_screening_df exampleRows = exampleRows := by
    simp only [first_screening_df, first_screening_aid, hs]
    decide
  have hty2 : pivotTypes exampleRows = assessmentTypes := by
    unfold pivotTypes
    have hd : (exampleRows.map (·.type_of_assessment)).dedup = assessmentTypes := by decide
    rw [hd]
    exact List.mergeSort_of_sorted (by decide)
  have hrow : final_row_cells [] exampleRows 1
      ∈ dropna [final_row_cells [] exampleRows 1] := by
    unfold dropna
    refine List.mem_filter.mpr ⟨List.mem_singleton.mpr rfl, ?_⟩
    simp only [final_row_cells, merged_assess_cells, other_columns_row, pivoted_row, pcell,
      h1, hty2]
    decide
  exact (person_in_output_has_full_batch exampleRows [] 1
      [final_row_cells [] exampleRows 1] hrow).2
    (by rw [h1, hty2]; intro ty hty; exact hty) "Risk of Violence" (by decide)

end Compas
